import Mathlib

/-!
Verification development for the Transactional Watchable Collection subsystem
of the pachyderm repository.

The repository ships the subsystem's test suite (collection_test.go, embedded
in src/cmd/objd/main.go) and its callers (server/auth/server/authdb.go), but
the implementation package `src/internal/collection` itself is not among the
provided sources.  The definitions below are therefore a shallow embedding
modelled from the specification (spec.md sections 3, 4.4, 4.5, 4.6, 7 and 8),
with the record type, collection name, error-matching behaviour and option
surface taken from the declarations visible in the test suite.
-/

namespace Collection

/-- Decidable equality for `Except`, used to evaluate the model on concrete
inputs. -/
instance {ε α : Type} [DecidableEq ε] [DecidableEq α] :
    DecidableEq (Except ε α) := fun a b =>
  match a, b with
  | .ok x, .ok y =>
    if h : x = y then .isTrue (by rw [h])
    else .isFalse (by intro hc; cases hc; exact h rfl)
  | .ok x, .error e => .isFalse fun hc => Except.noConfusion hc
  | .error e, .ok x => .isFalse fun hc => Except.noConfusion hc
  | .error e, .error f =>
    if h : e = f then .isTrue (by rw [h])
    else .isFalse (by intro hc; cases hc; exact h rfl)

/-- Typed record stored in the test collection (`col.TestItem` in the test
suite): a primary-key field `id` and a payload field `value`. -/
structure TestItem where
  id : String
  value : String
deriving DecidableEq

/-- Modelled from the spec: the surfaced error taxonomy of the missing
`src/internal/collection` package — `ErrNotFound{Type,Key}`,
`ErrExists{Type,Key}`, user-defined callback errors, `context.Canceled`,
and the sentinel `errutil.ErrBreak` (constructor `brk`). -/
inductive Err where
  | notFound (ty k : String)
  | errExists (ty k : String)
  | userError (msg : String)
  | canceled
  | brk
deriving DecidableEq

/-- Modelled from the spec: `errors.Is` matching for collection errors.
A `ErrNotFound`/`ErrExists` target matches when each of its fields is either
unset (empty string) or equal to the corresponding field of the error; other
errors match by equality. -/
def errIs : Err → Err → Bool
  | .notFound t k, .notFound t2 k2 => (t2 == "" || t2 == t) && (k2 == "" || k2 == k)
  | .errExists t k, .errExists t2 k2 => (t2 == "" || t2 == t) && (k2 == "" || k2 == k)
  | e, e2 => e == e2

/-- Modelled from the spec: `col.IsErrNotFound` — true exactly on not-found
errors. -/
def IsErrNotFound : Err → Bool
  | .notFound _ _ => true
  | _ => false

/-- Modelled from the spec: `col.IsErrExists` — true exactly on
already-exists errors. -/
def IsErrExists : Err → Bool
  | .errExists _ _ => true
  | _ => false

/-- Modelled from the spec: a stored row — value bytes plus the monotonic
revisions `created_rev` and `updated_rev` assigned by the store adapter. -/
structure Row where
  value : TestItem
  createRev : Nat
  modRev : Nat
deriving DecidableEq

/-- Modelled from the spec: the committed state of one collection — its
unique name, its rows keyed by a UTF-8 string, and the adapter's revision
sequence. -/
structure DB where
  name : String
  rows : List (String × Row)
  nextRev : Nat
deriving DecidableEq

/-- Lookup of a key in the row table. -/
def findRow : List (String × Row) → String → Option Row
  | [], _ => none
  | (k2, r) :: rest, k => if k2 = k then some r else findRow rest k

/-- Replace the row stored under a key, or append it if the key is absent
(insertion order of fresh keys is preserved). -/
def setRow : List (String × Row) → String → Row → List (String × Row)
  | [], k, r => [(k, r)]
  | (k2, r2) :: rest, k, r =>
    if k2 = k then (k, r) :: rest else (k2, r2) :: setRow rest k r

/-- Remove the row stored under a key. -/
def removeRow : List (String × Row) → String → List (String × Row)
  | [], _ => []
  | (k2, r2) :: rest, k =>
    if k2 = k then rest else (k2, r2) :: removeRow rest k

/-- An empty collection with a given name. -/
def DB.empty (name : String) : DB := ⟨name, [], 0⟩

/-- Modelled from the spec: `Get(key, dest)` — populate dest with the
committed-or-own-write value, or fail with `ErrNotFound{collection, key}`. -/
def DB.get (db : DB) (k : String) : Except Err TestItem :=
  match findRow db.rows k with
  | some r => .ok r.value
  | none => .error (.notFound db.name k)

/-- Modelled from the spec: `Put(key, value)` — upsert the row, keeping
`created_rev` for an existing key and assigning a fresh `updated_rev` from
the revision sequence. -/
def DB.put (db : DB) (k : String) (v : TestItem) : DB :=
  let cr := match findRow db.rows k with
    | some r => r.createRev
    | none => db.nextRev
  { db with rows := setRow db.rows k ⟨v, cr, db.nextRev⟩, nextRev := db.nextRev + 1 }

/-- Modelled from the spec: `Create(key, value)` — insert a fresh row, or
fail with `ErrExists{collection, key}` when the key is already present. -/
def DB.create (db : DB) (k : String) (v : TestItem) : Except Err DB :=
  match findRow db.rows k with
  | some _ => .error (.errExists db.name k)
  | none => .ok { db with
      rows := setRow db.rows k ⟨v, db.nextRev, db.nextRev⟩,
      nextRev := db.nextRev + 1 }

/-- Modelled from the spec: `Update(key, dest, mutator)` — the mutator sees
the current value and may modify it; the row is replaced with the result.
Fails with `ErrNotFound{collection, key}` when the key is absent; a mutator
error is propagated unchanged. -/
def DB.update (db : DB) (k : String) (f : TestItem → Except Err TestItem) :
    Except Err DB :=
  match findRow db.rows k with
  | none => .error (.notFound db.name k)
  | some r => (f r.value).map fun v => db.put k v

/-- Modelled from the spec: `Upsert(key, dest, mutator)` — the mutator sees
the current value or the zero value; the resulting row is written. -/
def DB.upsert (db : DB) (k : String) (f : TestItem → Except Err TestItem) :
    Except Err DB :=
  let cur := match findRow db.rows k with
    | some r => r.value
    | none => ⟨"", ""⟩
  (f cur).map fun v => db.put k v

/-- Modelled from the spec: `Delete(key)` — remove the row, or fail with
`ErrNotFound{collection, key}` when the key is absent. -/
def DB.delete (db : DB) (k : String) : Except Err DB :=
  match findRow db.rows k with
  | some _ => .ok { db with rows := removeRow db.rows k }
  | none => .error (.notFound db.name k)

/-- Modelled from the spec: `DeleteAll()` — remove every row of the
collection. -/
def DB.deleteAll (db : DB) : DB := { db with rows := [] }

/-- Modelled from the spec: `Count()` — the number of rows in the
collection. -/
def DB.count (db : DB) : Nat := db.rows.length

/-- Modelled from the spec: a notification record buffered with each
mutation — kind (`put` or `delete`) and affected key. -/
inductive Notif where
  | putN (k : String)
  | delN (k : String)
deriving DecidableEq

/-- Modelled from the spec: in-flight transaction state — the adapter-level
collection state, plus the buffered list of pending notifications that is
flushed only on commit. -/
structure Tx where
  db : DB
  notifs : List Notif
deriving DecidableEq

/-- Begin a transaction over a committed collection state: an empty
notification buffer. -/
def Tx.ofDB (db : DB) : Tx := ⟨db, []⟩

/-- Read within a transaction (`ReadWriteCollection.Get`): reads see the
transaction's own writes. -/
def Tx.get (tx : Tx) (k : String) : Except Err TestItem := tx.db.get k

/-- Modelled from the spec: the operations a transaction callback may issue
against a `ReadWriteCollection`, plus returning a non-nil user error. -/
inductive Cmd where
  | create (k : String) (v : TestItem)
  | put (k : String) (v : TestItem)
  | update (k : String) (f : TestItem → Except Err TestItem)
  | upsert (k : String) (f : TestItem → Except Err TestItem)
  | delete (k : String)
  | deleteAll
  | userErr (e : Err)

/-- Modelled from the spec: execute one operation inside a transaction,
appending its notifications to the transaction's buffer. `DeleteAll` emits
one delete notification per affected key. -/
def execCmd (tx : Tx) : Cmd → Except Err Tx
  | .create k v => (tx.db.create k v).map fun db => ⟨db, tx.notifs ++ [.putN k]⟩
  | .put k v => .ok ⟨tx.db.put k v, tx.notifs ++ [.putN k]⟩
  | .update k f => (tx.db.update k f).map fun db => ⟨db, tx.notifs ++ [.putN k]⟩
  | .upsert k f => (tx.db.upsert k f).map fun db => ⟨db, tx.notifs ++ [.putN k]⟩
  | .delete k => (tx.db.delete k).map fun db => ⟨db, tx.notifs ++ [.delN k]⟩
  | .deleteAll =>
    .ok ⟨tx.db.deleteAll, tx.notifs ++ tx.db.rows.map fun kv => .delN kv.1⟩
  | .userErr e => .error e

/-- Execute the operations of a transaction callback in program order,
stopping at the first error. -/
def execCmds (tx : Tx) : List Cmd → Except Err Tx
  | [] => .ok tx
  | c :: cs => (execCmd tx c).bind fun tx2 => execCmds tx2 cs

/-- Modelled from the spec: run a transaction callback and commit or roll
back.  On success the mutated state is committed and the buffered
notifications are flushed in order; on any error (operation error or user
error) all mutations are discarded, no notifications are emitted, and the
error is surfaced. -/
def runTx (db : DB) (cmds : List Cmd) : DB × List Notif × Except Err Unit :=
  match execCmds (Tx.ofDB db) cmds with
  | .ok tx => (tx.db, tx.notifs, .ok ())
  | .error e => (db, [], .error e)

/-- Modelled from the spec: `Target ∈ {Key, CreateRev, ModRev}` of the list
options. -/
inductive SortTarget where
  | byKey
  | byCreateRev
  | byModRev
deriving DecidableEq

/-- Modelled from the spec: `Order ∈ {Ascend, Descend, None}` of the list
options; `None` (constructor `unordered`) permits the adapter's cheapest
deterministic order — insertion order by primary key here. -/
inductive SortOrder where
  | ascend
  | descend
  | unordered
deriving DecidableEq

/-- Boolean order on keys (lexicographic String order). -/
def keyLe (a b : String) : Bool := decide (a < b) || a == b

/-- Comparator for rows under a sort target. -/
def rowLe (t : SortTarget) (a b : String × Row) : Bool :=
  match t with
  | .byKey => keyLe a.1 b.1
  | .byCreateRev => decide (a.2.createRev ≤ b.2.createRev)
  | .byModRev => decide (a.2.modRev ≤ b.2.modRev)

/-- Stable insertion into a sorted list. -/
def insertLe (le : α → α → Bool) (x : α) : List α → List α
  | [] => [x]
  | y :: ys => if le x y then x :: y :: ys else y :: insertLe le x ys

/-- Stable insertion sort. -/
def sortLe (le : α → α → Bool) : List α → List α
  | [] => []
  | x :: xs => insertLe le x (sortLe le xs)

/-- Modelled from the spec: the rows visited by `List` under the requested
target and order. -/
def DB.listRows (db : DB) (t : SortTarget) (o : SortOrder) : List (String × Row) :=
  match o with
  | .ascend => sortLe (rowLe t) db.rows
  | .descend => (sortLe (rowLe t) db.rows).reverse
  | .unordered => db.rows

/-- Keys in list order. -/
def DB.listKeys (db : DB) (t : SortTarget) (o : SortOrder) : List String :=
  (db.listRows t o).map fun kv => kv.1

/-- Values in list order. -/
def DB.listItems (db : DB) (t : SortTarget) (o : SortOrder) : List TestItem :=
  (db.listRows t o).map fun kv => kv.2.value

/-- Modelled from the spec: the iteration loop of `List` — invoke the
callback per row; `ErrBreak` stops the iteration and returns success to the
caller, any other callback error stops the iteration and propagates.
Returns the rows the callback was invoked on together with the result. -/
def listLoop (f : α → Except Err Unit) : List α → List α × Except Err Unit
  | [] => ([], .ok ⟨⟩)
  | x :: xs =>
    match f x with
    | .ok _ =>
      let r := listLoop f xs
      (x :: r.1, r.2)
    | .error e => if e = .brk then ([x], .ok ⟨⟩) else ([x], .error e)

/-- Modelled from the spec: `List(dest, options, callback)`. -/
def DB.list (db : DB) (t : SortTarget) (o : SortOrder)
    (f : TestItem → Except Err Unit) : List TestItem × Except Err Unit :=
  listLoop f (db.listItems t o)

/-- Modelled from the spec: an event delivered to a watch consumer —
`Put(key, value)`, `Delete(key)`, or a terminal `Error`. -/
inductive WEvent where
  | put (k : String) (v : TestItem)
  | del (k : String)
  | err (e : Err)
deriving DecidableEq

/-- True on error events. -/
def isErrEvent : WEvent → Bool
  | .err _ => true
  | _ => false

/-- The key an event is about, if any. -/
def eventKey : WEvent → Option String
  | .put k _ => some k
  | .del k => some k
  | .err _ => none

/-- Modelled from the spec: the callback form `WatchF(callback)` of the
missing watcher.  If the context is already canceled when the call is made,
it returns an error whose cause is `Canceled` before invoking the callback
on any event; otherwise it feeds the pending events (snapshot followed by
live tail) through the callback with the same break/error semantics as
`List`.  Returns the events delivered to the callback and the result. -/
def watchF (ctxCanceled : Bool) (events : List WEvent)
    (f : WEvent → Except Err Unit) : List WEvent × Except Err Unit :=
  if ctxCanceled then ([], .error .canceled) else listLoop f events

/-- Modelled from the spec: `WatchOneF(key, callback)` — as `watchF`, with
the *OneKey* filter applied to the event stream. -/
def watchOneF (ctxCanceled : Bool) (k : String) (events : List WEvent)
    (f : WEvent → Except Err Unit) : List WEvent × Except Err Unit :=
  watchF ctxCanceled (events.filter fun e => eventKey e == some k) f

/-- Modelled from the spec: the observable state of a watcher from the
instant its context is canceled — the queue of matching events not yet
handed to the consumer, the cancellation flag, the number of deliveries the
watcher may still make before it observes the cancellation (the spec bounds
it by one), and whether the watcher has closed. -/
structure WState where
  pending : List WEvent
  canceled : Bool
  budget : Nat
  closed : Bool

/-- Modelled from the spec: one delivery step of the watcher state machine.
`deliver` hands the head of the queue to the consumer; once the context is
canceled this is possible only while the post-cancellation budget is
nonzero, and it consumes budget.  `cancelClose` observes the cancellation:
it delivers the terminal `Error{Canceled}` event and closes the watcher.
No step leaves a closed state. -/
inductive WStep : WState → WEvent → WState → Prop
  | deliver (e : WEvent) (rest : List WEvent) (c : Bool) (b : Nat)
      (hb : c = true → b ≠ 0) :
      WStep ⟨e :: rest, c, b, false⟩ e ⟨rest, c, b - 1, false⟩
  | cancelClose (p : List WEvent) (b : Nat) :
      WStep ⟨p, true, b, false⟩ (.err .canceled) ⟨p, true, b, true⟩

/-- A complete run of the watcher state machine: the sequence of events it
delivers until it closes. -/
inductive WRun : WState → List WEvent → Prop
  | done (p : List WEvent) (c : Bool) (b : Nat) : WRun ⟨p, c, b, true⟩ []
  | step {s s2 : WState} {e : WEvent} {tr : List WEvent} :
      WStep s e s2 → WRun s2 tr → WRun s (e :: tr)

/-- The collection name used by the test suite. -/
def collName : String := "test_items"

/-- Decimal string for an integer row id (`makeID` in the test suite). -/
def makeID (i : Nat) : String := toString i

/-- The row ids `[start, stop)` as strings (`idRange` in the test suite). -/
def idRange (start stop : Nat) : List String :=
  (List.range (stop - start)).map fun i => makeID (start + i)

/-- The default collection of the test suite: keys "0".."9", each created
with value "old" in one transaction (`populateCollection`). -/
def defaultDB : DB :=
  (runTx (DB.empty collName)
    ((idRange 0 10).map fun k => Cmd.create k ⟨k, "old"⟩)).1

/-- The creation order used by the List/Sort/CreatedAt test. -/
def createKeysOrder : List String :=
  ["0", "6", "7", "9", "3", "8", "4", "1", "2", "5"]

/-- The collection built by the List/Sort/CreatedAt test: each key created
in its own committed transaction, in `createKeysOrder` order. -/
def createdDB : DB :=
  createKeysOrder.foldl
    (fun db k => (runTx db [Cmd.create k ⟨k, "old"⟩]).1)
    (DB.empty collName)

/-- A two-row collection used as a concrete List input. -/
def twoDB : DB :=
  (runTx (DB.empty collName)
    [Cmd.create "1" ⟨"1", "old"⟩, Cmd.create "2" ⟨"2", "old"⟩]).1

theorem findRow_setRow_self (rows : List (String × Row)) (k : String) (r : Row) :
    findRow (setRow rows k r) k = some r := by
  induction rows with
  | nil => simp [setRow, findRow]
  | cons hd tl ih =>
    obtain ⟨k2, r2⟩ := hd
    by_cases h : k2 = k
    · simp [setRow, findRow, h]
    · simp [setRow, findRow, h, ih]

theorem get_put_self (db : DB) (k : String) (v : TestItem) :
    (db.put k v).get k = .ok v := by
  simp [DB.put, DB.get, findRow_setRow_self]

theorem listLoop_break (f : α → Except Err Unit) (xs : List α) (x : α)
    (ys : List α) (hok : ∀ z ∈ xs, f z = .ok ⟨⟩)
    (hx : f x = .error .brk) :
    listLoop f (xs ++ x :: ys) = (xs ++ [x], .ok ⟨⟩) := by
  induction xs with
  | nil => simp [listLoop, hx]
  | cons z zs ih =>
    have hz : f z = .ok ⟨⟩ := hok z (by simp)
    have ih2 := ih fun w hw => hok w (by simp [hw])
    simp [listLoop, hz, ih2]

theorem listLoop_error (f : α → Except Err Unit) (xs : List α) (x : α)
    (ys : List α) (e : Err) (hok : ∀ z ∈ xs, f z = .ok ⟨⟩)
    (hne : e ≠ .brk) (hx : f x = .error e) :
    listLoop f (xs ++ x :: ys) = (xs ++ [x], .error e) := by
  induction xs with
  | nil => simp [listLoop, hx, hne]
  | cons z zs ih =>
    have hz : f z = .ok ⟨⟩ := hok z (by simp)
    have ih2 := ih fun w hw => hok w (by simp [hw])
    simp [listLoop, hz, ih2]

theorem wrun_closed {p : List WEvent} {c : Bool} {b : Nat} {tr : List WEvent}
    (h : WRun ⟨p, c, b, true⟩ tr) : tr = [] := by
  cases h with
  | done => rfl
  | step hs _ => cases hs

theorem wrun_budget_zero {p tr : List WEvent}
    (h : WRun ⟨p, true, 0, false⟩ tr) : tr = [WEvent.err Err.canceled] := by
  cases h with
  | step hs htr =>
    cases hs with
    | deliver e rest c b hb => exact absurd rfl (hb rfl)
    | cancelClose => rw [wrun_closed htr]

theorem isErrEvent_err (e : Err) : isErrEvent (.err e) = true := rfl

/-- Claim C1 (transaction atomicity): if any operation of the transaction
callback or the callback itself returns an error, the collection state after
the commit-or-rollback attempt equals the state before Begin, no
notifications are emitted, and the error is surfaced. -/
theorem claim_C1 (db : DB) (cmds : List Cmd) (e : Err)
    (h : execCmds (Tx.ofDB db) cmds = .error e) :
    runTx db cmds = (db, [], .error e) := by
  simp [runTx, h]

/-- Witness for claim C1: a transaction on the default collection that
creates key "10" and then returns a user error rolls back completely. -/
theorem claim_C1_witness :
    runTx defaultDB
        [Cmd.create "10" ⟨"10", "new"⟩, Cmd.userErr (.userError "TestError")] =
      (defaultDB, [], .error (.userError "TestError")) :=
  claim_C1 defaultDB
    [Cmd.create "10" ⟨"10", "new"⟩, Cmd.userErr (.userError "TestError")]
    (.userError "TestError") (by decide)

/-- Claim C2 (round-trip): for every record r and key k, `Put(k, r)` then
`Get(k)` returns r, whether or not a row for k existed before the Put. -/
theorem claim_C2 (db : DB) (k : String) (r : TestItem) :
    (db.put k r).get k = .ok r :=
  get_put_self db k r

/-- Claim C3 (create-uniqueness): after `Create(k, r)` succeeds, a second
`Create(k, r2)` fails with an `Exists` error carrying the collection name
and the key, both immediately (same transaction) and in a later transaction
run against the committed state, which it leaves unmodified and for which no
notifications are emitted. -/
theorem claim_C3 (db db2 : DB) (k : String) (r r2 : TestItem)
    (h : db.create k r = .ok db2) :
    db2.create k r2 = .error (.errExists db.name k) ∧
    runTx db2 [Cmd.create k r2] = (db2, [], .error (.errExists db.name k)) := by
  have hsplit : findRow db.rows k = none ∧
      db2 = ⟨db.name, setRow db.rows k ⟨r, db.nextRev, db.nextRev⟩, db.nextRev + 1⟩ := by
    unfold DB.create at h
    cases hf : findRow db.rows k with
    | some r3 => rw [hf] at h; cases h
    | none => rw [hf] at h; exact ⟨rfl, (Except.ok.inj h).symm⟩
  obtain ⟨hf, hdb2⟩ := hsplit
  subst hdb2
  have h1 : DB.create
      ⟨db.name, setRow db.rows k ⟨r, db.nextRev, db.nextRev⟩, db.nextRev + 1⟩
      k r2 = .error (.errExists db.name k) := by
    unfold DB.create
    simp [findRow_setRow_self]
  refine ⟨h1, ?_⟩
  simp [runTx, execCmds, execCmd, Tx.ofDB, h1, Except.map, Except.bind]

/-- Witness for claim C3: creating key "5" in an empty collection and then
creating it again fails with Exists and leaves the state unchanged. -/
theorem claim_C3_witness :
    DB.create ⟨collName, [("5", ⟨⟨"5", "new"⟩, 0, 0⟩)], 1⟩ "5" ⟨"5", "old"⟩ =
      .error (.errExists (DB.empty collName).name "5") ∧
    runTx ⟨collName, [("5", ⟨⟨"5", "new"⟩, 0, 0⟩)], 1⟩ [Cmd.create "5" ⟨"5", "old"⟩] =
      (⟨collName, [("5", ⟨⟨"5", "new"⟩, 0, 0⟩)], 1⟩, [],
        .error (.errExists (DB.empty collName).name "5")) :=
  claim_C3 (DB.empty collName) ⟨collName, [("5", ⟨⟨"5", "new"⟩, 0, 0⟩)], 1⟩
    "5" ⟨"5", "new"⟩ ⟨"5", "old"⟩ (by decide)

/-- Claim C4 (DeleteAll postcondition): a committed transaction that runs
`DeleteAll()` succeeds, after it `Count()` is 0 and `Get(k)` fails with
`NotFound` for every key k. -/
theorem claim_C4 (db : DB) :
    (runTx db [Cmd.deleteAll]).2.2 = .ok () ∧
    (runTx db [Cmd.deleteAll]).1.count = 0 ∧
    ∀ k, (runTx db [Cmd.deleteAll]).1.get k = .error (.notFound db.name k) :=
  ⟨rfl, rfl, fun _ => rfl⟩

/-- Claim C5 (read-your-own-writes): a read inside a transaction reflects
the writes already performed in that transaction — after an in-transaction
`DeleteAll()`, `Get(k)` fails with `NotFound` for every key, before any
commit; and after an in-transaction `Put(k2, v)`, `Get(k2)` returns v. -/
theorem claim_C5 (tx tx2 tx3 : Tx) (k k2 : String) (v : TestItem)
    (h1 : execCmd tx Cmd.deleteAll = .ok tx2)
    (h2 : execCmd tx (Cmd.put k2 v) = .ok tx3) :
    tx2.get k = .error (.notFound tx.db.name k) ∧ tx3.get k2 = .ok v := by
  constructor
  · have hval : tx2 = ⟨tx.db.deleteAll, tx.notifs ++ tx.db.rows.map fun kv => .delN kv.1⟩ :=
      (Except.ok.inj h1).symm
    subst hval
    rfl
  · have hval : tx3 = ⟨tx.db.put k2 v, tx.notifs ++ [.putN k2]⟩ :=
      (Except.ok.inj h2).symm
    subst hval
    exact get_put_self tx.db k2 v

/-- Witness for claim C5: inside a transaction on the empty collection, a
read after DeleteAll sees NotFound and a read after Put sees the new
value. -/
theorem claim_C5_witness :
    Tx.get ⟨⟨collName, [], 0⟩, []⟩ "0" =
      .error (.notFound (Tx.ofDB (DB.empty collName)).db.name "0") ∧
    Tx.get ⟨⟨collName, [("10", ⟨⟨"10", "new"⟩, 0, 0⟩)], 1⟩, [.putN "10"]⟩ "10" =
      .ok ⟨"10", "new"⟩ :=
  claim_C5 (Tx.ofDB (DB.empty collName)) ⟨⟨collName, [], 0⟩, []⟩
    ⟨⟨collName, [("10", ⟨⟨"10", "new"⟩, 0, 0⟩)], 1⟩, [.putN "10"]⟩
    "0" "10" ⟨"10", "new"⟩ (by decide) (by decide)

/-- Claim C6 (watcher cancellation terminality): from any watcher state
whose context is canceled and whose remaining delivery budget is at most
one, every complete run delivers at most one further queued event, then
exactly one Error event whose cause is Canceled, and then nothing. -/
theorem claim_C6 (p : List WEvent) (b : Nat) (tr : List WEvent)
    (hb : b ≤ 1) (hp : ∀ e ∈ p, isErrEvent e = false)
    (hrun : WRun ⟨p, true, b, false⟩ tr) :
    ∃ n, n ≤ 1 ∧ tr = p.take n ++ [WEvent.err Err.canceled] ∧
      tr.countP isErrEvent = 1 := by
  cases hrun with
  | @step _ s2 ev tr2 hs htr =>
    cases hs with
    | deliver e2 rest c b2 hb2 =>
      have hb0 : b ≠ 0 := hb2 rfl
      have hb1 : b = 1 := le_antisymm hb (Nat.one_le_iff_ne_zero.mpr hb0)
      subst hb1
      have htail := wrun_budget_zero htr
      subst htail
      have he : isErrEvent ev = false := hp ev (by simp)
      exact ⟨1, le_refl 1,
        by simp [List.take],
        by simp [List.countP_cons, List.countP_nil, he, isErrEvent_err]⟩
    | cancelClose =>
      have htail := wrun_closed htr
      subst htail
      exact ⟨0, Nat.zero_le 1, by simp,
        by simp [List.countP_cons, List.countP_nil, isErrEvent_err]⟩

/-- Witness for claim C6: a canceled watcher with one queued Delete event
and budget one; the run delivering that event, then the Canceled error,
satisfies the theorem. -/
theorem claim_C6_witness :
    ∃ n, n ≤ 1 ∧
      [WEvent.del "4", WEvent.err Err.canceled] =
        [WEvent.del "4"].take n ++ [WEvent.err Err.canceled] ∧
      List.countP isErrEvent [WEvent.del "4", WEvent.err Err.canceled] = 1 :=
  claim_C6 [WEvent.del "4"] 1 [WEvent.del "4", WEvent.err Err.canceled]
    (by decide) (by decide)
    (WRun.step (WStep.deliver (WEvent.del "4") [] true 1 fun _ => Nat.one_ne_zero)
      (WRun.step (WStep.cancelClose [] 0) (WRun.done [] true 0)))

/-- Claim C7 (List break semantics): when the callback returns the sentinel
Break error, List stops iterating (the callback is invoked on no further
row) and returns success; when the callback returns any other non-nil
error, List stops iterating and propagates that error. -/
theorem claim_C7 (db : DB) (t : SortTarget) (o : SortOrder)
    (f : TestItem → Except Err Unit) (xs ys : List TestItem) (x : TestItem)
    (hsplit : db.listItems t o = xs ++ x :: ys)
    (hok : ∀ z ∈ xs, f z = .ok ⟨⟩) :
    (f x = .error .brk → db.list t o f = (xs ++ [x], .ok ⟨⟩)) ∧
    ∀ e, e ≠ .brk → f x = .error e → db.list t o f = (xs ++ [x], .error e) := by
  constructor
  · intro hx
    unfold DB.list
    rw [hsplit]
    exact listLoop_break f xs x ys hok hx
  · intro e hne hx
    unfold DB.list
    rw [hsplit]
    exact listLoop_error f xs x ys e hok hne hx

/-- Witness for claim C7: on a two-row collection, a callback that breaks on
the first row stops List after one invocation with success. -/
theorem claim_C7_witness :
    twoDB.list .byKey .unordered (fun _ => .error .brk) =
      ([⟨"1", "old"⟩], .ok ⟨⟩) :=
  (claim_C7 twoDB .byKey .unordered (fun _ => .error .brk)
    [] [⟨"2", "old"⟩] ⟨"1", "old"⟩ (by decide) (by simp)).1 rfl

/-- Claim C8 (sort by creation revision): for rows created in separate
transactions in the order 0,6,7,9,3,8,4,1,2,5, a List with Target=CreateRev
and Order=Ascend yields the keys in exactly that creation order, and
Order=Descend yields exactly the reverse. -/
theorem claim_C8 :
    createdDB.listKeys .byCreateRev .ascend = createKeysOrder ∧
    createdDB.listKeys .byCreateRev .descend = createKeysOrder.reverse := by
  decide

/-- Claim C9 (error matching ignores unset fields): NotFound errors from
Get, Update and Delete for an absent key carry the collection name and key
and match `errors.Is` against both the zero-value target and the fully
populated target; likewise Exists errors from Create on a present key; and
IsErrNotFound / IsErrExists hold for exactly the respective errors. -/
theorem claim_C9 (db : DB) (k1 k2 : String) (v : TestItem)
    (f : TestItem → Except Err TestItem)
    (h1 : findRow db.rows k1 = none)
    (h2 : (findRow db.rows k2).isSome = true) :
    db.get k1 = .error (.notFound db.name k1) ∧
    db.delete k1 = .error (.notFound db.name k1) ∧
    db.update k1 f = .error (.notFound db.name k1) ∧
    db.create k2 v = .error (.errExists db.name k2) ∧
    errIs (.notFound db.name k1) (.notFound "" "") = true ∧
    errIs (.notFound db.name k1) (.notFound db.name k1) = true ∧
    errIs (.errExists db.name k2) (.errExists "" "") = true ∧
    errIs (.errExists db.name k2) (.errExists db.name k2) = true ∧
    (∀ e, IsErrNotFound e = true ↔ ∃ t k, e = Err.notFound t k) ∧
    (∀ e, IsErrExists e = true ↔ ∃ t k, e = Err.errExists t k) := by
  obtain ⟨r2, hr2⟩ := Option.isSome_iff_exists.mp h2
  refine ⟨?_, ?_, ?_, ?_, ?_, ?_, ?_, ?_, ?_, ?_⟩
  · simp [DB.get, h1]
  · simp [DB.delete, h1]
  · simp [DB.update, h1]
  · simp [DB.create, hr2]
  · simp [errIs]
  · simp [errIs]
  · simp [errIs]
  · simp [errIs]
  · intro e; cases e <;> simp [IsErrNotFound]
  · intro e; cases e <;> simp [IsErrExists]

/-- Witness for claim C9: on the default collection, key "baz" is absent
and key "5" is present. -/
theorem claim_C9_witness :
    defaultDB.get "baz" = .error (.notFound defaultDB.name "baz") ∧
    defaultDB.delete "baz" = .error (.notFound defaultDB.name "baz") ∧
    defaultDB.update "baz" (fun t => .ok t) =
      .error (.notFound defaultDB.name "baz") ∧
    defaultDB.create "5" ⟨"5", "new"⟩ = .error (.errExists defaultDB.name "5") ∧
    errIs (.notFound defaultDB.name "baz") (.notFound "" "") = true ∧
    errIs (.notFound defaultDB.name "baz") (.notFound defaultDB.name "baz") = true ∧
    errIs (.errExists defaultDB.name "5") (.errExists "" "") = true ∧
    errIs (.errExists defaultDB.name "5") (.errExists defaultDB.name "5") = true ∧
    (∀ e, IsErrNotFound e = true ↔ ∃ t k, e = Err.notFound t k) ∧
    (∀ e, IsErrExists e = true ↔ ∃ t k, e = Err.errExists t k) :=
  claim_C9 defaultDB "baz" "5" ⟨"5", "new"⟩ (fun t => .ok t)
    (by decide) (by decide)

/-- Claim C10 (pre-canceled watch): if the context is already canceled when
WatchF or WatchOneF is called, the call returns an error matching
`errors.Is` against Canceled and the event callback is never invoked — zero
events are delivered, including snapshot events. -/
theorem claim_C10 (c : Bool) (k : String) (events : List WEvent)
    (f : WEvent → Except Err Unit) (h : c = true) :
    watchF c events f = ([], .error .canceled) ∧
    watchOneF c k events f = ([], .error .canceled) ∧
    errIs .canceled .canceled = true := by
  subst h
  exact ⟨rfl, rfl, rfl⟩

/-- Witness for claim C10: a pre-canceled WatchF/WatchOneF over a stream
holding one Put event delivers nothing and errors with Canceled. -/
theorem claim_C10_witness :
    watchF true [WEvent.put "1" ⟨"1", "new"⟩] (fun _ => .ok ⟨⟩) =
      ([], .error .canceled) ∧
    watchOneF true "1" [WEvent.put "1" ⟨"1", "new"⟩] (fun _ => .ok ⟨⟩) =
      ([], .error .canceled) ∧
    errIs .canceled .canceled = true :=
  claim_C10 true "1" [WEvent.put "1" ⟨"1", "new"⟩] (fun _ => .ok ⟨⟩) rfl

end Collection
